import Mathlib

/-!
Verification of the subliminal candidate matching and scoring subsystem.

The development shallowly embeds the three source files
`subliminal/score.py`, `subliminal/providers/addic7ed.py` and
`subliminal/providers/opensubtitles.py`.  Pure functions of the source are
translated to Lean functions; the two provider classes are modelled as
structures plus functions over them; external collaborators (the fuzzy
text-equality function `hmg`, the guess extraction helpers, the remote
catalog client and the show-id cache) are passed in as explicit function
parameters.  Helpers of the repository that live outside the provided
sources (`rm_par`, `compute_guess_matches`,
`compute_guess_properties_matches`, `computeScore`) are modelled from the
specification and carry a doc comment saying so.
-/

namespace Subliminal

/-! ## Score equations (`subliminal/score.py`) -/

/-- The thirteen attribute symbols of the episode equation system, from the
`symbols(...)` declarations of `score.py`. -/
inductive EpSym
  | release_group | resolution | format | video_codec | audio_codec
  | imdb_id | hash | series | tvdb_id | season | episode | title | year
  deriving DecidableEq, Repr

/-- The nine attribute symbols of the movie equation system. -/
inductive MovSym
  | release_group | resolution | format | video_codec | audio_codec
  | imdb_id | hash | title | year
  deriving DecidableEq, Repr

/-- Embedding of `get_episode_equations`: the conjunction of the thirteen
`Eq(...)` constraints appended to the list, in source order, read as
equations over a weight assignment `w`. -/
def get_episode_equations (w : EpSym → ℚ) : Prop :=
  w .hash = w .resolution + w .format + w .video_codec + w .audio_codec
      + w .release_group + w .series + w .year + w .season
  ∧ w .series = w .resolution + w .video_codec + w .audio_codec
      + w .release_group + w .format + 1
  ∧ w .series = w .year
  ∧ w .tvdb_id = w .series + w .year
  ∧ w .season = w .series
  ∧ w .imdb_id = w .series + w .season + w .episode + w .year
  ∧ w .format = 4
  ∧ w .resolution = 4
  ∧ w .video_codec = 1
  ∧ w .title = w .season + w .episode
  ∧ w .season = w .episode
  ∧ w .release_group = 8
  ∧ w .audio_codec = 2

/-- Embedding of `get_movie_equations`: the conjunction of the ten
`Eq(...)` constraints appended to the list, in source order (the
`video_codec = 2 * audio_codec` constraint appears twice in the source and
is kept twice here). -/
def get_movie_equations (w : MovSym → ℚ) : Prop :=
  w .hash = w .resolution + w .format + w .video_codec + w .audio_codec
      + w .title + w .year + w .release_group
  ∧ w .imdb_id = w .hash
  ∧ w .resolution = w .video_codec
  ∧ w .video_codec = 2 * w .audio_codec
  ∧ w .format = w .video_codec + w .audio_codec
  ∧ w .title = w .resolution + w .video_codec + w .audio_codec + w .year + 1
  ∧ w .video_codec = 2 * w .audio_codec
  ∧ w .release_group = w .resolution + w .video_codec + w .audio_codec + 1
  ∧ w .year = w .release_group + 1
  ∧ w .audio_codec = 1

/-- The closed-form solution of the episode equation system. -/
def episodeWeight : EpSym → ℚ
  | .release_group => 8
  | .resolution => 4
  | .format => 4
  | .video_codec => 1
  | .audio_codec => 2
  | .imdb_id => 80
  | .hash => 79
  | .series => 20
  | .tvdb_id => 40
  | .season => 20
  | .episode => 20
  | .title => 40
  | .year => 20

/-- The closed-form solution of the movie equation system. -/
def movieWeight : MovSym → ℚ
  | .release_group => 6
  | .resolution => 2
  | .format => 3
  | .video_codec => 2
  | .audio_codec => 1
  | .imdb_id => 34
  | .hash => 34
  | .title => 13
  | .year => 7

lemma episodeWeight_solves : get_episode_equations episodeWeight := by
  refine ⟨?_, ?_, ?_, ?_, ?_, ?_, ?_, ?_, ?_, ?_, ?_, ?_, ?_⟩ <;> norm_num [episodeWeight]

lemma movieWeight_solves : get_movie_equations movieWeight := by
  refine ⟨?_, ?_, ?_, ?_, ?_, ?_, ?_, ?_, ?_, ?_⟩ <;> norm_num [movieWeight]

/-- Any solution of the episode system agrees with `episodeWeight`. -/
lemma episode_solution_unique (w : EpSym → ℚ) (h : get_episode_equations w) :
    ∀ x, w x = episodeWeight x := by
  obtain ⟨e1, e2, e3, e4, e5, e6, e7, e8, e9, e10, e11, e12, e13⟩ := h
  intro x
  cases x <;> simp only [episodeWeight] <;> linarith

/-- Any solution of the movie system agrees with `movieWeight`. -/
lemma movie_solution_unique (w : MovSym → ℚ) (h : get_movie_equations w) :
    ∀ x, w x = movieWeight x := by
  obtain ⟨e1, e2, e3, e4, e5, e6, e7, e8, e9, e10⟩ := h
  intro x
  cases x <;> simp only [movieWeight] <;> linarith

/-- C1 counterexample: the episode system is solvable, but its solution
violates the ordering claimed in C1 in two places: the claimed chain puts
`format` (and `resolution`) strictly above `episode` (and `season`), while
the solution has `format = 4 < 20 = episode`, and it puts `video_codec`
strictly above `audio_codec`, while the solution has
`video_codec = 1 < 2 = audio_codec`. -/
theorem claimC1_counterexample :
    get_episode_equations episodeWeight
      ∧ episodeWeight .format < episodeWeight .episode
      ∧ episodeWeight .video_codec < episodeWeight .audio_codec := by
  refine ⟨episodeWeight_solves, ?_, ?_⟩ <;> norm_num [episodeWeight]

/-- C1 (amended): every solution of the thirteen episode equations assigns
a strictly positive weight to each of the thirteen symbols, and satisfies
the ordering hash > series+year+season (combined) > title >
episode = season > release_group > format = resolution > audio_codec >
video_codec. -/
theorem claimC1_theorem (w : EpSym → ℚ) (h : get_episode_equations w) :
    (∀ x, 0 < w x)
      ∧ w .series + w .year + w .season < w .hash
      ∧ w .title < w .series + w .year + w .season
      ∧ w .episode < w .title
      ∧ w .episode = w .season
      ∧ w .release_group < w .episode
      ∧ w .format < w .release_group
      ∧ w .format = w .resolution
      ∧ w .audio_codec < w .format
      ∧ w .video_codec < w .audio_codec := by
  have hw := episode_solution_unique w h
  refine ⟨fun x => ?_, ?_, ?_, ?_, ?_, ?_, ?_, ?_, ?_, ?_⟩ <;>
    simp only [hw] <;> first
      | (cases x <;> norm_num [episodeWeight])
      | norm_num [episodeWeight]

/-- C1 witness: the amended ordering instantiated at the concrete
solution. -/
theorem claimC1_witness :
    get_episode_equations episodeWeight ∧ ∀ x, 0 < episodeWeight x :=
  ⟨episodeWeight_solves, (claimC1_theorem episodeWeight episodeWeight_solves).1⟩

/-- C2 counterexample: the movie system is solvable, but its solution has
`video_codec` equal to `resolution` (both 2), not strictly smaller as the
claim states; indeed the third source equation is
`resolution = video_codec`. -/
theorem claimC2_counterexample :
    get_movie_equations movieWeight
      ∧ movieWeight .video_codec = movieWeight .resolution
      ∧ ¬ movieWeight .video_codec < movieWeight .resolution := by
  refine ⟨movieWeight_solves, ?_, ?_⟩ <;> norm_num [movieWeight]

/-- C2 (amended): every solution of the movie equations satisfies
`hash = imdb_id`, `audio_codec` strictly smaller than `video_codec`, and
`video_codec` equal to (not strictly smaller than) `resolution`. -/
theorem claimC2_theorem (w : MovSym → ℚ) (h : get_movie_equations w) :
    w .hash = w .imdb_id
      ∧ w .audio_codec < w .video_codec
      ∧ w .video_codec = w .resolution := by
  have hw := movie_solution_unique w h
  refine ⟨?_, ?_, ?_⟩ <;> simp only [hw] <;> norm_num [movieWeight]

/-- C2 witness: the amended statement instantiated at the concrete
solution. -/
theorem claimC2_witness :
    get_movie_equations movieWeight
      ∧ movieWeight .hash = movieWeight .imdb_id :=
  ⟨movieWeight_solves, (claimC2_theorem movieWeight movieWeight_solves).1⟩

/-! ## Score calculation -/

/-- Modelled from the spec: the ScoreCalculator (`computeScore`, spec 4.3
and 6) is not among the provided sources; per the spec it sums the weights
of the attributes of a match set: `score(matchSet, weightMap) =`
sum of `weightMap[a]` for `a` in `matchSet`. -/
def computeScore {α : Type} [DecidableEq α] (w : α → ℚ) (s : Finset α) : ℚ :=
  s.sum w

/-- C6: adding a fresh attribute to a match set never decreases the score,
for the episode weight map and for the movie weight map. -/
theorem claimC6_theorem (S : Finset EpSym) (a : EpSym) (T : Finset MovSym)
    (b : MovSym) (ha : a ∉ S) (hb : b ∉ T) :
    computeScore episodeWeight S ≤ computeScore episodeWeight (insert a S)
      ∧ computeScore movieWeight T ≤ computeScore movieWeight (insert b T) := by
  constructor
  · have hpos : 0 ≤ episodeWeight a := by cases a <;> norm_num [episodeWeight]
    simp only [computeScore, Finset.sum_insert ha]
    linarith
  · have hpos : 0 ≤ movieWeight b := by cases b <;> norm_num [movieWeight]
    simp only [computeScore, Finset.sum_insert hb]
    linarith

/-- C6 witness: monotonicity instantiated at the empty match set and the
hash attribute. -/
theorem claimC6_witness :
    (EpSym.hash ∉ (∅ : Finset EpSym)) ∧ (MovSym.hash ∉ (∅ : Finset MovSym))
      ∧ computeScore episodeWeight ∅
          ≤ computeScore episodeWeight (insert EpSym.hash ∅) :=
  ⟨by decide, by decide,
    (claimC6_theorem ∅ EpSym.hash ∅ MovSym.hash (by decide) (by decide)).1⟩

/-! ## Helpers from `subliminal/subtitle.py` (not among the provided
sources), modelled from the spec -/

/-- Drops characters up to and including the first closing parenthesis. -/
def drop_close : List Char → List Char
  | [] => []
  | ')' :: rest => rest
  | _ :: rest => drop_close rest

/-- Removes the first parenthesized group, together with one preceding
space when present; the remainder of the string is kept verbatim. -/
def rm_par_list : List Char → List Char
  | [] => []
  | ' ' :: '(' :: rest => drop_close rest
  | '(' :: rest => drop_close rest
  | c :: rest => c :: rm_par_list rest

/-- Modelled from the spec: `rm_par` lives in `subliminal/subtitle.py`,
which is not among the provided sources.  Per spec 4.4 step 6 it strips a
parenthesized qualifier (for example an "(US)" suffix) from a series name;
a name without such a qualifier is returned unchanged. -/
def rm_par (s : String) : String :=
  String.mk (rm_par_list s.toList)

/-! ## OpenSubtitles search construction
(`OpenSubtitlesProvider.query`, lines 110-124) -/

/-- One search-parameter dictionary appended to `searches` by
`OpenSubtitlesProvider.query`. -/
inductive SearchParam
  | moviehash (hash : String) (moviebytesize : String)
  | imdbid (id : Int)
  | queryFull (query : String) (season episode : Int)
  | queryOnly (query : String)
  deriving DecidableEq, Repr

/-- Embedding of the `searches` construction of
`OpenSubtitlesProvider.query`: the content-hash criterion is appended when
both `hash` and `size` are given, then the imdb criterion, then the
free-text criterion (with season and episode when both are given,
otherwise the query alone); an empty list raises `ValueError`.  The
per-search `sublanguageid` annotation added afterwards is outside the
claims and not modelled. -/
def os_build_searches (hash : Option String) (size : Option Int)
    (imdb_id : Option Int) (query : Option String)
    (season episode : Option Int) : Except String (List SearchParam) :=
  let searches : List SearchParam := []
  let searches := match hash, size with
    | some h, some sz => searches ++ [SearchParam.moviehash h (toString sz)]
    | _, _ => searches
  let searches := match imdb_id with
    | some i => searches ++ [SearchParam.imdbid i]
    | none => searches
  let searches := match query, season, episode with
    | some q, some s, some e => searches ++ [SearchParam.queryFull (rm_par q) s e]
    | some q, _, _ => searches ++ [SearchParam.queryOnly q]
    | none, _, _ => searches
  if searches = [] then Except.error "One or more parameter missing"
  else Except.ok searches

/-- The content-hash criterion of the claim: formed exactly when both hash
and size are supplied. -/
def hashCriterion (hash : Option String) (size : Option Int) : List SearchParam :=
  match hash, size with
  | some h, some sz => [SearchParam.moviehash h (toString sz)]
  | _, _ => []

/-- The external-id criterion of the claim: formed exactly when an imdb id
is supplied. -/
def imdbCriterion (imdb_id : Option Int) : List SearchParam :=
  match imdb_id with
  | some i => [SearchParam.imdbid i]
  | none => []

/-- The free-text criterion of the claim: with season and episode when
both are supplied together with the query, otherwise the query alone. -/
def textCriterion (query : Option String) (season episode : Option Int) :
    List SearchParam :=
  match query, season, episode with
  | some q, some s, some e => [SearchParam.queryFull (rm_par q) s e]
  | some q, _, _ => [SearchParam.queryOnly q]
  | none, _, _ => []

/-- C7: `OpenSubtitlesProvider.query` builds the search list as the
content-hash criterion, then the external-id criterion, then the free-text
criterion, each formed exactly when its arguments are supplied, and raises
exactly when no criterion can be formed. -/
theorem claimC7_theorem (hash : Option String) (size : Option Int)
    (imdb_id : Option Int) (query : Option String)
    (season episode : Option Int) :
    (os_build_searches hash size imdb_id query season episode
        = Except.error "One or more parameter missing"
      ↔ ¬ ((hash.isSome ∧ size.isSome) ∨ imdb_id.isSome ∨ query.isSome))
    ∧ (∀ l, os_build_searches hash size imdb_id query season episode
          = Except.ok l →
        l = hashCriterion hash size ++ imdbCriterion imdb_id
              ++ textCriterion query season episode ∧ l ≠ [])
    ∧ (hashCriterion hash size ≠ [] ↔ hash.isSome ∧ size.isSome)
    ∧ (imdbCriterion imdb_id ≠ [] ↔ imdb_id.isSome)
    ∧ (textCriterion query season episode ≠ [] ↔ query.isSome) := by
  rcases hash with _ | h <;> rcases size with _ | sz <;>
    rcases imdb_id with _ | i <;> rcases query with _ | q <;>
    rcases season with _ | s <;> rcases episode with _ | e <;>
    simp [os_build_searches, hashCriterion, imdbCriterion, textCriterion]

/-- C7 witness: a query-only request forms exactly the free-text
criterion. -/
theorem claimC7_witness :
    os_build_searches none none none (some "dexter") none none
        = Except.ok [SearchParam.queryOnly "dexter"]
      ∧ [SearchParam.queryOnly "dexter"]
          = hashCriterion none none ++ imdbCriterion none
              ++ textCriterion (some "dexter") none none :=
  ⟨rfl, ((claimC7_theorem none none none (some "dexter") none none).2.1
      [SearchParam.queryOnly "dexter"] rfl).1⟩

/-! ## Response checking (`opensubtitles.py`, `checked`, lines 216-241) -/

/-- A response from an XMLRPC call to OpenSubtitles; only the status
string matters to `checked`, the payload stands for the remaining
fields. -/
structure OSResponse where
  status : String
  payload : List (String × String)
  deriving DecidableEq, Repr

/-- The exceptions `checked` can raise: one constructor per
provider-specific exception class, the generic `openSubtitlesError`
carrying the status string, and `valueError` for a status whose first
three characters do not parse as an integer (the `int` call itself
fails). -/
inductive OSErr
  | unauthorized | noSession | downloadLimitReached | invalidImdbid
  | unknownUserAgent | disabledUserAgent | serviceUnavailable
  | openSubtitlesError (status : String)
  | valueError
  deriving DecidableEq, Repr

/-- Accumulates the value of a digit string; any non-digit character makes
the parse fail. -/
def digitsVal : List Char → Nat → Option Nat
  | [], acc => some acc
  | c :: rest, acc =>
    if c.isDigit then digitsVal rest (acc * 10 + (c.toNat - 48)) else none

/-- Models the Python `int` conversion applied to a short string: an
optional leading minus sign followed by decimal digits (the whitespace and
plus-sign tolerance of Python `int` is not needed by the status strings
and is not modelled). -/
def pyInt (s : String) : Option Int :=
  match s.toList with
  | [] => none
  | '-' :: rest =>
    if rest = [] then none
    else (digitsVal rest 0).map (fun n => -(n : Int))
  | cs => (digitsVal cs 0).map (fun n => (n : Int))

/-- Embedding of `checked`: parse the first three characters of the
status as an integer and dispatch on the code. -/
def checked (r : OSResponse) : Except OSErr OSResponse :=
  match pyInt (r.status.take 3) with
  | none => Except.error OSErr.valueError
  | some status_code =>
    if status_code = 401 then Except.error OSErr.unauthorized
    else if status_code = 406 then Except.error OSErr.noSession
    else if status_code = 407 then Except.error OSErr.downloadLimitReached
    else if status_code = 413 then Except.error OSErr.invalidImdbid
    else if status_code = 414 then Except.error OSErr.unknownUserAgent
    else if status_code = 415 then Except.error OSErr.disabledUserAgent
    else if status_code = 503 then Except.error OSErr.serviceUnavailable
    else if status_code ≠ 200 then
      Except.error (OSErr.openSubtitlesError r.status)
    else Except.ok r

/-- C10: `checked` returns its argument unchanged exactly when the numeric
prefix of the status is 200, and otherwise raises the exception class
determined by the code. -/
theorem claimC10_theorem (r : OSResponse) (c : Int)
    (h : pyInt (r.status.take 3) = some c) :
    (checked r = Except.ok r ↔ c = 200)
    ∧ (c = 401 → checked r = Except.error OSErr.unauthorized)
    ∧ (c = 406 → checked r = Except.error OSErr.noSession)
    ∧ (c = 407 → checked r = Except.error OSErr.downloadLimitReached)
    ∧ (c = 413 → checked r = Except.error OSErr.invalidImdbid)
    ∧ (c = 414 → checked r = Except.error OSErr.unknownUserAgent)
    ∧ (c = 415 → checked r = Except.error OSErr.disabledUserAgent)
    ∧ (c = 503 → checked r = Except.error OSErr.serviceUnavailable)
    ∧ (c ≠ 200 ∧ c ≠ 401 ∧ c ≠ 406 ∧ c ≠ 407 ∧ c ≠ 413 ∧ c ≠ 414
        ∧ c ≠ 415 ∧ c ≠ 503 →
        checked r = Except.error (OSErr.openSubtitlesError r.status)) := by
  simp only [checked, h]
  split_ifs <;> simp_all

/-- A response with an OK status. -/
def okResponse : OSResponse := { status := "200 OK", payload := [] }

/-- C10 witness: a 200 status is returned unchanged. -/
theorem claimC10_witness :
    pyInt (okResponse.status.take 3) = some 200
      ∧ checked okResponse = Except.ok okResponse :=
  ⟨by decide, (claimC10_theorem okResponse 200 (by decide)).1.mpr rfl⟩

/-! ## The attribute vocabulary and the data model of the matchers -/

/-- The closed set of attribute names a matcher can report. -/
inductive Attr
  | series | season | episode | title | year | release_group | resolution
  | format | video_codec | audio_codec | hash | imdb_id | tvdb_id
  deriving DecidableEq, Repr

/-- An Episode video, per spec section 3 (the class itself lives in
`subliminal/video.py`, outside the provided sources; the fields are the
ones the two matchers read, each optional because any of them can be
unknown). -/
structure EpisodeVideo where
  series : Option String
  season : Option Int
  episode : Option Int
  title : Option String
  year : Option Int
  release_group : Option String
  resolution : Option String
  format : Option String
  video_codec : Option String
  audio_codec : Option String
  hashes : List (String × String)
  size : Option Int
  imdb_id : Option Int
  deriving DecidableEq, Repr

/-- A Movie video, per spec section 3. -/
structure MovieVideo where
  title : Option String
  year : Option Int
  release_group : Option String
  resolution : Option String
  format : Option String
  video_codec : Option String
  audio_codec : Option String
  hashes : List (String × String)
  size : Option Int
  imdb_id : Option Int
  deriving DecidableEq, Repr

/-- The two media kinds of a video. -/
inductive Video
  | episode (e : EpisodeVideo)
  | movie (m : MovieVideo)
  deriving DecidableEq, Repr

def Video.hashes : Video → List (String × String)
  | .episode e => e.hashes
  | .movie m => m.hashes

def Video.imdb_id : Video → Option Int
  | .episode e => e.imdb_id
  | .movie m => m.imdb_id

/-- Dictionary access `d[k]` combined with the `k in d` test. -/
def dictGet (l : List (String × String)) (k : String) : Option String :=
  (l.find? (fun p => p.1 == k)).map (fun p => p.2)

/-- A singleton `matches.add a` guarded by a condition, the shape of every
comparison in both `compute_matches` methods. -/
def addIf (c : Bool) (a : Attr) : Finset Attr :=
  if c then {a} else ∅

@[simp] lemma mem_addIf {c : Bool} {a b : Attr} :
    b ∈ addIf c a ↔ b = a ∧ c = true := by
  cases c <;> simp [addIf]

/-- Does `needle` occur at the head of `hay`. -/
def startsWithL : List Char → List Char → Bool
  | _, [] => true
  | [], _ :: _ => false
  | c :: cs, d :: ds => c == d && startsWithL cs ds

/-- Substring containment on character lists: the Python `needle in hay`
test on strings. -/
def containsL : List Char → List Char → Bool
  | [], needle => needle.isEmpty
  | c :: cs, needle => startsWithL (c :: cs) needle || containsL cs needle

/-- The attributes recoverable by guess extraction, per spec section 4.2:
release group, resolution, format, video codec and audio codec. -/
def guessableAttrs : Finset Attr :=
  {Attr.release_group, Attr.resolution, Attr.format, Attr.video_codec,
   Attr.audio_codec}

/-- The video field corresponding to a guessable attribute. -/
def videoGuessField (v : Video) (a : Attr) : Option String :=
  match v, a with
  | .episode e, .release_group => e.release_group
  | .episode e, .resolution => e.resolution
  | .episode e, .format => e.format
  | .episode e, .video_codec => e.video_codec
  | .episode e, .audio_codec => e.audio_codec
  | .movie m, .release_group => m.release_group
  | .movie m, .resolution => m.resolution
  | .movie m, .format => m.format
  | .movie m, .video_codec => m.video_codec
  | .movie m, .audio_codec => m.audio_codec
  | _, _ => none

/-- Modelled from the spec: `compute_guess_matches` lives in
`subliminal/subtitle.py`, outside the provided sources.  Per spec
sections 4.2 and 6 it applies a guess-extraction function to a free-text
release string and reports, among the guessable attributes, those the
text implies match the video; an attribute the video does not carry
cannot match it.  The guess function is a parameter. -/
def compute_guess_matches (guessP : String → Attr → Bool) (v : Video)
    (txt : String) : Finset Attr :=
  guessableAttrs.filter (fun a => guessP txt a && (videoGuessField v a).isSome)

/-- Modelled from the spec: `compute_guess_properties_matches` lives in
`subliminal/subtitle.py`, outside the provided sources.  Per the spec it
reports a single named property when the free-text version string implies
it matches the video; a missing version string yields nothing. -/
def compute_guess_properties_matches (guessP : String → Attr → Bool)
    (v : Video) (version : Option String) (a : Attr) : Finset Attr :=
  match version with
  | none => ∅
  | some txt => addIf (guessP txt a && (videoGuessField v a).isSome) a

lemma mem_compute_guess_properties_matches {guessP : String → Attr → Bool}
    {v : Video} {version : Option String} {a b : Attr} :
    b ∈ compute_guess_properties_matches guessP v version a →
      b = a ∧ version.isSome = true ∧ (videoGuessField v a).isSome = true := by
  cases version <;>
    simp_all [compute_guess_properties_matches, Bool.and_eq_true]

/-! ## `Addic7edSubtitle.compute_matches` (`addic7ed.py`, lines 35-68) -/

/-- An `Addic7edSubtitle`.  Field types follow the values the provider
constructs in `Addic7edProvider.query`: `series` is the resolved series
string, `season` and `episode` are parsed integers, `title`, `year` and
`version` can be missing. -/
structure Addic7edSub where
  language : String
  series : String
  season : Int
  episode : Int
  title : Option String
  year : Option Int
  version : Option String
  hearing_impaired : Bool
  download_link : String
  page_link : String
  deriving DecidableEq, Repr

/-- Embedding of `Addic7edSubtitle.compute_matches`.  The fuzzy
text-equality helper `hmg` and the guess function are parameters (both
live outside the provided sources).  Each guarded comparison of the
source is one `addIf` term; note that the year comparison
`self.year == video.year` is not guarded by a presence check, which the
`Option` equality reproduces, and that the `screenSize` guess property of
the source maps to the resolution attribute.  A candidate title is
compared only when present on both sides (the source passes it to the
external `hmg` unguarded). -/
def a7_compute_matches (hmgf : String → String)
    (guessP : String → Attr → Bool) (v : EpisodeVideo) (s : Addic7edSub) :
    Finset Attr :=
  addIf (match v.series with
         | some x => hmgf x == hmgf s.series
         | none => false) Attr.series
  ∪ addIf (match v.season with
           | some x => s.season == x
           | none => false) Attr.season
  ∪ addIf (match v.episode with
           | some x => s.episode == x
           | none => false) Attr.episode
  ∪ addIf (match v.title, s.title with
           | some t, some st => hmgf t == hmgf st
           | _, _ => false) Attr.title
  ∪ addIf (s.year == v.year) Attr.year
  ∪ addIf (match v.release_group, s.version with
           | some rg, some ver => containsL ver.toLower.toList rg.toLower.toList
           | _, _ => false) Attr.release_group
  ∪ addIf (match v.resolution, s.version with
           | some r, some ver => containsL ver.toLower.toList r.toLower.toList
           | _, _ => false) Attr.resolution
  ∪ addIf (match v.format, s.version with
           | some f, some ver => containsL ver.toLower.toList f.toLower.toList
           | _, _ => false) Attr.format
  ∪ compute_guess_properties_matches guessP (Video.episode v) s.version
      Attr.resolution
  ∪ compute_guess_properties_matches guessP (Video.episode v) s.version
      Attr.format

/-- The attributes whose required fields are present on both sides of an
Addic7ed comparison, with the year entry stating the unguarded equality
the source actually tests. -/
def a7_allowed (v : EpisodeVideo) (s : Addic7edSub) : Finset Attr :=
  addIf v.series.isSome Attr.series
  ∪ addIf v.season.isSome Attr.season
  ∪ addIf v.episode.isSome Attr.episode
  ∪ addIf (v.title.isSome && s.title.isSome) Attr.title
  ∪ addIf (s.year == v.year) Attr.year
  ∪ addIf (v.release_group.isSome && s.version.isSome) Attr.release_group
  ∪ addIf (v.resolution.isSome && s.version.isSome) Attr.resolution
  ∪ addIf (v.format.isSome && s.version.isSome) Attr.format

/-! ## `OpenSubtitlesSubtitle.compute_matches`
(`opensubtitles.py`, lines 47-89) -/

/-- An `OpenSubtitlesSubtitle`.  Field types follow the values the
provider constructs in `OpenSubtitlesProvider.query` from the response
rows. -/
structure OpenSubtitlesSub where
  id : String
  matched_by : String
  movie_kind : String
  hash : String
  movie_name : String
  movie_release_name : String
  movie_year : Option Int
  movie_imdb_id : Option Int
  series_season : Option Int
  series_episode : Option Int
  deriving DecidableEq, Repr

/-- Splits a character list at the last occurrence of a quote followed by
a space, the split the greedy groups of the series regular expression
produce. -/
def lastQuoteSpaceSplit : List Char → Option (List Char × List Char)
  | [] => none
  | c :: rest =>
    match lastQuoteSpaceSplit rest with
    | some (pre, post) => some (c :: pre, post)
    | none =>
      match c, rest with
      | '"', ' ' :: rest2 => some ([], rest2)
      | _, _ => none

/-- The `series_name` property: the first greedy group of
`^"(?P<series_name>.*)" (?P<series_title>.*)$` applied to `movie_name`.
A name that does not match the pattern yields `none` (the source would
raise there; that path is outside the settled claims). -/
def series_name (movie_name : String) : Option String :=
  match movie_name.toList with
  | '"' :: rest => (lastQuoteSpaceSplit rest).map (fun p => String.mk p.1)
  | _ => none

/-- The `series_title` property: the second greedy group of the series
regular expression. -/
def series_title (movie_name : String) : Option String :=
  match movie_name.toList with
  | '"' :: rest => (lastQuoteSpaceSplit rest).map (fun p => String.mk p.2)
  | _ => none

/-- The hash and imdb comparisons of `OpenSubtitlesSubtitle.compute_matches`
that run before the media-kind dispatch. -/
def os_pre_matches (v : Video) (s : OpenSubtitlesSub) : Finset Attr :=
  addIf (match dictGet v.hashes "opensubtitles" with
         | some h => s.hash == h
         | none => false) Attr.hash
  ∪ addIf (match v.imdb_id with
           | some i => s.movie_imdb_id == some i
           | none => false) Attr.imdb_id

/-- Embedding of `OpenSubtitlesSubtitle.compute_matches`: the hash and
imdb comparisons run first, then the episode or movie specific
comparisons run only when the video kind and the reported `movie_kind`
agree, and otherwise the function returns the matches collected so far.
The two guessit calls of the source are the two guess parameters. -/
def os_compute_matches (hmgf : String → String)
    (guessEp guessMov : String → Attr → Bool) (v : Video)
    (s : OpenSubtitlesSub) : Finset Attr :=
  let pre := os_pre_matches v s
  match v with
  | .episode e =>
    if s.movie_kind = "episode" then
      pre
      ∪ addIf (match e.series, series_name s.movie_name with
               | some x, some n => hmgf x == hmgf n
               | _, _ => false) Attr.series
      ∪ addIf (match e.season with
               | some x => s.series_season == some x
               | none => false) Attr.season
      ∪ addIf (match e.episode with
               | some x => s.series_episode == some x
               | none => false) Attr.episode
      ∪ addIf (match e.title, series_title s.movie_name with
               | some t, some st => hmgf t == hmgf st
               | _, _ => false) Attr.title
      ∪ compute_guess_matches guessEp (Video.episode e)
          (s.movie_release_name ++ ".mkv")
    else pre
  | .movie m =>
    if s.movie_kind = "movie" then
      pre
      ∪ addIf (match m.title with
               | some t => hmgf t == hmgf s.movie_name
               | none => false) Attr.title
      ∪ addIf (match m.year with
               | some y => s.movie_year == some y
               | none => false) Attr.year
      ∪ compute_guess_matches guessMov (Video.movie m)
          (s.movie_release_name ++ ".mkv")
    else pre

/-- The guessable attributes the video actually carries. -/
def guess_allowed (v : Video) : Finset Attr :=
  guessableAttrs.filter (fun a => (videoGuessField v a).isSome)

/-- The attributes whose required fields are present on both sides of an
OpenSubtitles comparison. -/
def os_allowed (v : Video) (s : OpenSubtitlesSub) : Finset Attr :=
  addIf (dictGet v.hashes "opensubtitles").isSome Attr.hash
  ∪ addIf (v.imdb_id.isSome && s.movie_imdb_id.isSome) Attr.imdb_id
  ∪ (match v with
     | .episode e =>
       addIf e.series.isSome Attr.series
       ∪ addIf (e.season.isSome && s.series_season.isSome) Attr.season
       ∪ addIf (e.episode.isSome && s.series_episode.isSome) Attr.episode
       ∪ addIf e.title.isSome Attr.title
       ∪ guess_allowed (Video.episode e)
     | .movie m =>
       addIf m.title.isSome Attr.title
       ∪ addIf (m.year.isSome && s.movie_year.isSome) Attr.year
       ∪ guess_allowed (Video.movie m))

/-- A video whose kind disagrees with the reported `movie_kind` of the
candidate, the situation of claim C3 (this also covers any unrecognized
`movie_kind` value). -/
def kind_mismatch (v : Video) (s : OpenSubtitlesSub) : Prop :=
  match v with
  | .episode _ => s.movie_kind ≠ "episode"
  | .movie _ => s.movie_kind ≠ "movie"

/-! ## Claims C3 and C4: kind mismatch and missing fields -/

lemma addIf_subset {c : Bool} {a : Attr} {S : Finset Attr}
    (h : c = true → a ∈ S) : addIf c a ⊆ S := by
  intro b hb
  rw [mem_addIf] at hb
  obtain ⟨rfl, hc⟩ := hb
  exact h hc

lemma compute_guess_matches_subset (guessP : String → Attr → Bool)
    (v : Video) (txt : String) :
    compute_guess_matches guessP v txt ⊆ guess_allowed v := by
  intro a ha
  simp only [compute_guess_matches, Finset.mem_filter, Bool.and_eq_true] at ha
  simp [guess_allowed, Finset.mem_filter, ha.1, ha.2.2]

lemma a7_subset_allowed (hmgf : String → String)
    (guessP : String → Attr → Bool) (v : EpisodeVideo) (s : Addic7edSub) :
    a7_compute_matches hmgf guessP v s ⊆ a7_allowed v s := by
  unfold a7_compute_matches
  refine Finset.union_subset (Finset.union_subset (Finset.union_subset
    (Finset.union_subset (Finset.union_subset (Finset.union_subset
    (Finset.union_subset (Finset.union_subset (Finset.union_subset
    ?_ ?_) ?_) ?_) ?_) ?_) ?_) ?_) ?_) ?_
  · refine addIf_subset fun hc => ?_
    cases hs : v.series
    · rw [hs] at hc; simp at hc
    · simp [a7_allowed, mem_addIf, hs]
  · refine addIf_subset fun hc => ?_
    cases hs : v.season
    · rw [hs] at hc; simp at hc
    · simp [a7_allowed, mem_addIf, hs]
  · refine addIf_subset fun hc => ?_
    cases hs : v.episode
    · rw [hs] at hc; simp at hc
    · simp [a7_allowed, mem_addIf, hs]
  · refine addIf_subset fun hc => ?_
    rcases ht : v.title with _ | t
    · rw [ht] at hc; simp at hc
    · rcases hst : s.title with _ | st
      · rw [ht, hst] at hc; simp at hc
      · simp [a7_allowed, mem_addIf, ht, hst]
  · refine addIf_subset fun hc => ?_
    simp [a7_allowed, mem_addIf, hc]
  · refine addIf_subset fun hc => ?_
    rcases hr : v.release_group with _ | rg
    · rw [hr] at hc; simp at hc
    · rcases hv : s.version with _ | ver
      · rw [hr, hv] at hc; simp at hc
      · simp [a7_allowed, mem_addIf, hr, hv]
  · refine addIf_subset fun hc => ?_
    rcases hr : v.resolution with _ | r
    · rw [hr] at hc; simp at hc
    · rcases hv : s.version with _ | ver
      · rw [hr, hv] at hc; simp at hc
      · simp [a7_allowed, mem_addIf, hr, hv]
  · refine addIf_subset fun hc => ?_
    rcases hr : v.format with _ | f
    · rw [hr] at hc; simp at hc
    · rcases hv : s.version with _ | ver
      · rw [hr, hv] at hc; simp at hc
      · simp [a7_allowed, mem_addIf, hr, hv]
  · intro a ha
    obtain ⟨rfl, hver, hf⟩ := mem_compute_guess_properties_matches ha
    simp only [videoGuessField] at hf
    cases hv : s.version
    · rw [hv] at hver; simp at hver
    · simp [a7_allowed, mem_addIf, hf, hv]
  · intro a ha
    obtain ⟨rfl, hver, hf⟩ := mem_compute_guess_properties_matches ha
    simp only [videoGuessField] at hf
    cases hv : s.version
    · rw [hv] at hver; simp at hver
    · simp [a7_allowed, mem_addIf, hf, hv]

lemma a7_year_iff (hmgf : String → String)
    (guessP : String → Attr → Bool) (v : EpisodeVideo) (s : Addic7edSub) :
    Attr.year ∈ a7_compute_matches hmgf guessP v s ↔ s.year = v.year := by
  rw [show (s.year = v.year) ↔ (s.year == v.year) = true by simp]
  cases hv : s.version <;>
    cases h1 : v.series <;> cases h2 : v.season <;> cases h3 : v.episode <;>
    cases h4 : v.title <;>
    simp [a7_compute_matches, mem_addIf, compute_guess_properties_matches,
      hv, h1, h2, h3, h4]

lemma os_pre_subset (v : Video) (s : OpenSubtitlesSub) :
    os_pre_matches v s ⊆ os_allowed v s := by
  unfold os_pre_matches
  refine Finset.union_subset ?_ ?_
  · refine addIf_subset fun hc => ?_
    refine Finset.mem_union_left _ (Finset.mem_union_left _ ?_)
    cases hd : dictGet v.hashes "opensubtitles"
    · rw [hd] at hc; simp at hc
    · simp [mem_addIf, hd]
  · refine addIf_subset fun hc => ?_
    refine Finset.mem_union_left _ (Finset.mem_union_right _ ?_)
    cases hi : v.imdb_id
    · rw [hi] at hc; simp at hc
    · rw [hi] at hc
      simp only [beq_iff_eq] at hc
      simp [mem_addIf, hi, hc]

lemma os_subset_allowed (hmgf : String → String)
    (guessEp guessMov : String → Attr → Bool) (v : Video)
    (s : OpenSubtitlesSub) :
    os_compute_matches hmgf guessEp guessMov v s ⊆ os_allowed v s := by
  cases v with
  | episode e =>
    simp only [os_compute_matches]
    by_cases hk : s.movie_kind = "episode"
    case neg => simp only [hk, if_false, reduceIte]; exact os_pre_subset (Video.episode e) s
    simp only [hk, if_true, reduceIte]
    refine Finset.union_subset (Finset.union_subset (Finset.union_subset
      (Finset.union_subset (Finset.union_subset ?_ ?_) ?_) ?_) ?_) ?_
    · exact os_pre_subset (Video.episode e) s
    · refine addIf_subset fun hc => ?_
      refine Finset.mem_union_right _ ?_
      cases hs : e.series
      · rw [hs] at hc; simp at hc
      · simp [mem_addIf, hs]
    · refine addIf_subset fun hc => ?_
      refine Finset.mem_union_right _ ?_
      cases hs : e.season
      · rw [hs] at hc; simp at hc
      · rw [hs] at hc
        simp only [beq_iff_eq] at hc
        simp [mem_addIf, hs, hc]
    · refine addIf_subset fun hc => ?_
      refine Finset.mem_union_right _ ?_
      cases hs : e.episode
      · rw [hs] at hc; simp at hc
      · rw [hs] at hc
        simp only [beq_iff_eq] at hc
        simp [mem_addIf, hs, hc]
    · refine addIf_subset fun hc => ?_
      refine Finset.mem_union_right _ ?_
      cases ht : e.title
      · rw [ht] at hc; simp at hc
      · simp [mem_addIf, ht]
    · refine subset_trans (compute_guess_matches_subset _ _ _) ?_
      intro a ha
      refine Finset.mem_union_right _ ?_
      simp only [os_allowed]
      exact Finset.mem_union_right _ ha
  | movie m =>
    simp only [os_compute_matches]
    by_cases hk : s.movie_kind = "movie"
    case neg => simp only [hk, if_false, reduceIte]; exact os_pre_subset (Video.movie m) s
    simp only [hk, if_true, reduceIte]
    refine Finset.union_subset (Finset.union_subset (Finset.union_subset
      ?_ ?_) ?_) ?_
    · exact os_pre_subset (Video.movie m) s
    · refine addIf_subset fun hc => ?_
      refine Finset.mem_union_right _ ?_
      cases ht : m.title
      · rw [ht] at hc; simp at hc
      · simp [mem_addIf, ht]
    · refine addIf_subset fun hc => ?_
      refine Finset.mem_union_right _ ?_
      cases hy : m.year
      · rw [hy] at hc; simp at hc
      · rw [hy] at hc
        simp only [beq_iff_eq] at hc
        simp [mem_addIf, hy, hc]
    · refine subset_trans (compute_guess_matches_subset _ _ _) ?_
      intro a ha
      refine Finset.mem_union_right _ ?_
      simp only [os_allowed]
      exact Finset.mem_union_right _ ha

/-- A movie video carrying a matching hash and imdb id, used against an
episode-kind candidate. -/
def c3Video : Video := Video.movie
  { title := some "Inception", year := some 2010, release_group := none,
    resolution := none, format := none, video_codec := none,
    audio_codec := none, hashes := [("opensubtitles", "abc123")],
    size := some 1000, imdb_id := some 1375666 }

/-- A candidate reporting `movie_kind` episode with the same hash and
imdb id as `c3Video`. -/
def c3Sub : OpenSubtitlesSub :=
  { id := "1", matched_by := "moviehash", movie_kind := "episode",
    hash := "abc123", movie_name := "Inception",
    movie_release_name := "Inception.720p", movie_year := some 2010,
    movie_imdb_id := some 1375666, series_season := none,
    series_episode := none }

/-- C3 counterexample: a Movie video against a candidate of kind episode
(a kind mismatch) produces the non-empty match set containing hash and
imdb_id, because those two comparisons run before the kind dispatch. -/
theorem claimC3_counterexample :
    kind_mismatch c3Video c3Sub
      ∧ os_compute_matches id (fun _ _ => false) (fun _ _ => false)
          c3Video c3Sub = {Attr.hash, Attr.imdb_id} := by
  constructor
  · simp [kind_mismatch, c3Video, c3Sub]
  · decide

/-- C3 (amended): on a kind mismatch `OpenSubtitlesSubtitle.compute_matches`
returns exactly the hash and imdb comparisons computed before the kind
dispatch, a subset of the two attributes hash and imdb_id (so the result
is empty only when neither of those matched). -/
theorem claimC3_theorem (hmgf : String → String)
    (guessEp guessMov : String → Attr → Bool) (v : Video)
    (s : OpenSubtitlesSub) (h : kind_mismatch v s) :
    os_compute_matches hmgf guessEp guessMov v s = os_pre_matches v s
      ∧ os_pre_matches v s ⊆ {Attr.hash, Attr.imdb_id} := by
  constructor
  · cases v with
    | episode e =>
      simp only [kind_mismatch] at h
      simp [os_compute_matches, h]
    | movie m =>
      simp only [kind_mismatch] at h
      simp [os_compute_matches, h]
  · intro a ha
    simp only [os_pre_matches, Finset.mem_union, mem_addIf] at ha
    rcases ha with ⟨rfl, _⟩ | ⟨rfl, _⟩ <;> simp

/-- An episode video with every descriptive field missing. -/
def c4Video : EpisodeVideo :=
  { series := none, season := none, episode := none, title := none,
    year := none, release_group := none, resolution := none,
    format := none, video_codec := none, audio_codec := none,
    hashes := [], size := none, imdb_id := none }

/-- An Addic7ed candidate whose year, title and version are missing. -/
def c4Sub : Addic7edSub :=
  { language := "English", series := "Dexter", season := 1, episode := 2,
    title := none, year := none, version := none,
    hearing_impaired := false, download_link := "/d", page_link := "/p" }

/-- An OpenSubtitles candidate of kind movie with missing year, imdb and
season fields. -/
def c4OsSub : OpenSubtitlesSub :=
  { id := "2", matched_by := "imdbid", movie_kind := "movie",
    hash := "", movie_name := "Inception",
    movie_release_name := "Inception.720p", movie_year := none,
    movie_imdb_id := none, series_season := none, series_episode := none }

/-- C4 counterexample: the Addic7ed year comparison is an unguarded
equality, so a video with no year against a candidate with no year
reports a year match, although the field is absent on both sides. -/
theorem claimC4_counterexample :
    c4Video.year = none ∧ c4Sub.year = none
      ∧ Attr.year ∈ a7_compute_matches id (fun _ _ => false) c4Video c4Sub := by
  refine ⟨rfl, rfl, ?_⟩
  decide

/-- C4 (amended): both matchers only ever report an attribute whose
required fields are present on the compared sides (`a7_allowed` and
`os_allowed` list them per attribute, always including the video side),
with the single exception of the Addic7ed year attribute, which is
reported exactly when the optional year fields are equal, including the
case where both are missing. -/
theorem claimC4_theorem (hmgf hmgf2 : String → String)
    (guessP guessEp guessMov : String → Attr → Bool) (v : EpisodeVideo)
    (s : Addic7edSub) (vv : Video) (ss : OpenSubtitlesSub) :
    a7_compute_matches hmgf guessP v s ⊆ a7_allowed v s
      ∧ (Attr.year ∈ a7_compute_matches hmgf guessP v s ↔ s.year = v.year)
      ∧ os_compute_matches hmgf2 guessEp guessMov vv ss ⊆ os_allowed vv ss :=
  ⟨a7_subset_allowed hmgf guessP v s, a7_year_iff hmgf guessP v s,
   os_subset_allowed hmgf2 guessEp guessMov vv ss⟩

/-- C4 witness: the amended statement instantiated at concrete inputs. -/
theorem claimC4_witness :
    a7_compute_matches id (fun _ _ => false) c4Video c4Sub
        ⊆ a7_allowed c4Video c4Sub
      ∧ os_compute_matches id (fun _ _ => false) (fun _ _ => false)
          (Video.episode c4Video) c4OsSub
        ⊆ os_allowed (Video.episode c4Video) c4OsSub :=
  ⟨(claimC4_theorem id id (fun _ _ => false) (fun _ _ => false)
      (fun _ _ => false) c4Video c4Sub (Video.episode c4Video) c4OsSub).1,
   (claimC4_theorem id id (fun _ _ => false) (fun _ _ => false)
      (fun _ _ => false) c4Video c4Sub (Video.episode c4Video) c4OsSub).2.2⟩

/-- C3 witness: an episode video against a movie-kind candidate returns
exactly the pre-dispatch matches. -/
theorem claimC3_witness :
    kind_mismatch (Video.episode c4Video) c4OsSub
      ∧ os_compute_matches id (fun _ _ => false) (fun _ _ => false)
          (Video.episode c4Video) c4OsSub
        = os_pre_matches (Video.episode c4Video) c4OsSub :=
  ⟨by simp [kind_mismatch, c4OsSub],
   (claimC3_theorem id (fun _ _ => false) (fun _ _ => false)
      (Video.episode c4Video) c4OsSub (by simp [kind_mismatch, c4OsSub])).1⟩

/-! ## `clean_series` (`addic7ed.py`, lines 285-295) -/

/-- The character class removed by `clean_series`: question mark,
exclamation mark, period, apostrophe (written by code point), comma,
slash, colon and hyphen. -/
def removedChars : List Char :=
  ['?', '!', '.', Char.ofNat 39, ',', '/', ':', '-']

/-- The ampersand replacement of `clean_series`: `re.sub` of the single
character `&` by the three characters `and`. -/
def ampRep (c : Char) : List Char :=
  if c = '&' then ['a', 'n', 'd'] else [c]

/-- The space compression of `clean_series`: `re.sub` of every run of two
or more spaces by a single space. -/
def collapseSpaces : List Char → List Char
  | [] => []
  | [c] => [c]
  | a :: b :: rest =>
    if a = ' ' ∧ b = ' ' then collapseSpaces (b :: rest)
    else a :: collapseSpaces (b :: rest)

/-- No two consecutive characters are both spaces. -/
def noTwoSpaces : List Char → Bool
  | a :: b :: rest => !(a == ' ' && b == ' ') && noTwoSpaces (b :: rest)
  | _ => true

/-- The character pipeline of `clean_series` after the unicode
normalization: drop the non-ASCII characters (the `encode` with `ignore`),
replace each ampersand by `and`, remove the punctuation class, compress
space runs, and lower-case. -/
def cleanChars (l : List Char) : List Char :=
  (collapseSpaces (((l.filter (fun c => c.toNat < 128)).flatMap ampRep).filter
    (fun c => c ∉ removedChars))).map Char.toLower

/-- Embedding of `clean_series`.  The NFKD normalization performed by the
external `unicodedata` module is a parameter `nfkd`; the subsequent
ASCII restriction, the three substitutions and the lower-casing are
`cleanChars`. -/
def clean_series (nfkd : String → String) (s : String) : String :=
  String.mk (cleanChars (nfkd s).toList)

lemma toNat_toLower (c : Char) :
    (c.toLower).toNat
      = if 65 ≤ c.toNat ∧ c.toNat ≤ 90 then c.toNat + 32 else c.toNat := by
  unfold Char.toLower
  split
  case isTrue h =>
    rw [if_pos (by omega)]
    have hv : (c.toNat + 32).isValidChar := by
      constructor
      omega
    rw [Char.ofNat, dif_pos hv]
    simp [Char.ofNatAux, Char.toNat, UInt32.toNat, BitVec.toNat_ofNatLt]
  case isFalse h =>
    rw [if_neg (by omega)]

lemma char_eq_iff_toNat {a b : Char} : a = b ↔ a.toNat = b.toNat := by
  constructor
  · intro h; rw [h]
  · intro h
    apply Char.ext
    exact UInt32.toNat.inj h

lemma toLower_toLower (c : Char) : (c.toLower).toLower = c.toLower := by
  rw [char_eq_iff_toNat, toNat_toLower, toNat_toLower]
  split_ifs <;> omega

lemma toLower_eq_low {d x : Char} (hx : x.toNat < 97) (h : d.toLower = x) :
    d = x := by
  rw [char_eq_iff_toNat] at h ⊢
  rw [toNat_toLower] at h
  split at h <;> omega

lemma toLower_ascii {c : Char} (h : c.toNat < 128) :
    (c.toLower).toNat < 128 := by
  rw [toNat_toLower]
  split <;> omega

lemma mem_collapseSpaces {c : Char} {l : List Char}
    (h : c ∈ collapseSpaces l) : c ∈ l := by
  induction l using collapseSpaces.induct with
  | case1 => simp [collapseSpaces] at h
  | case2 d => simpa [collapseSpaces] using h
  | case3 a b rest hab ih =>
    rw [collapseSpaces, if_pos hab] at h
    exact List.mem_cons_of_mem _ (ih h)
  | case4 a b rest hab ih =>
    rw [collapseSpaces, if_neg hab] at h
    rcases List.mem_cons.mp h with rfl | h2
    · exact List.mem_cons_self _ _
    · exact List.mem_cons_of_mem _ (ih h2)

lemma collapseSpaces_cons (b : Char) (rest : List Char) :
    ∃ t, collapseSpaces (b :: rest) = b :: t := by
  induction rest generalizing b with
  | nil => exact ⟨[], rfl⟩
  | cons c r ih =>
    by_cases hbc : b = ' ' ∧ c = ' '
    · obtain ⟨t, ht⟩ := ih c
      refine ⟨t, ?_⟩
      rw [collapseSpaces, if_pos hbc, ht, hbc.1, hbc.2]
    · exact ⟨collapseSpaces (c :: r), by rw [collapseSpaces, if_neg hbc]⟩

lemma noTwoSpaces_collapseSpaces (l : List Char) :
    noTwoSpaces (collapseSpaces l) = true := by
  induction l using collapseSpaces.induct with
  | case1 => simp [collapseSpaces, noTwoSpaces]
  | case2 d => simp [collapseSpaces, noTwoSpaces]
  | case3 a b rest hab ih => rw [collapseSpaces, if_pos hab]; exact ih
  | case4 a b rest hab ih =>
    rw [collapseSpaces, if_neg hab]
    obtain ⟨t, ht⟩ := collapseSpaces_cons b rest
    rw [ht] at ih ⊢
    rw [noTwoSpaces, ih, Bool.and_true]
    simp only [Bool.not_eq_true']
    rcases Decidable.em (a = ' ') with ha | ha
    · rcases Decidable.em (b = ' ') with hb | hb
      · exact absurd ⟨ha, hb⟩ hab
      · simp [hb]
    · simp [ha]

lemma collapseSpaces_eq_self {l : List Char} (h : noTwoSpaces l = true) :
    collapseSpaces l = l := by
  induction l using collapseSpaces.induct with
  | case1 => rfl
  | case2 d => rfl
  | case3 a b rest hab ih =>
    rw [noTwoSpaces] at h
    simp only [Bool.and_eq_true, Bool.not_eq_true', Bool.and_eq_false_iff] at h
    rcases h.1 with h1 | h1 <;> simp [hab.1, hab.2] at h1
  | case4 a b rest hab ih =>
    rw [noTwoSpaces] at h
    simp only [Bool.and_eq_true] at h
    rw [collapseSpaces, if_neg hab, ih h.2]

lemma noTwoSpaces_map_toLower {l : List Char} (h : noTwoSpaces l = true) :
    noTwoSpaces (l.map Char.toLower) = true := by
  induction l with
  | nil => rfl
  | cons a t ih =>
    cases t with
    | nil => rfl
    | cons b r =>
      rw [noTwoSpaces] at h
      simp only [Bool.and_eq_true, Bool.not_eq_true', Bool.and_eq_false_iff] at h
      rw [List.map_cons, List.map_cons, noTwoSpaces]
      have h2 := ih h.2
      rw [List.map_cons] at h2
      rw [h2, Bool.and_true]
      simp only [Bool.not_eq_true', Bool.and_eq_false_iff, beq_eq_false_iff_ne,
        ne_eq]
      rcases h.1 with h1 | h1
      · exact Or.inl fun hc =>
          (by simp at h1; exact h1 (toLower_eq_low (by decide) hc))
      · exact Or.inr fun hc =>
          (by simp at h1; exact h1 (toLower_eq_low (by decide) hc))

lemma flatMap_ampRep_eq_self {l : List Char} (h : ∀ c ∈ l, c ≠ '&') :
    l.flatMap ampRep = l := by
  induction l with
  | nil => rfl
  | cons a t ih =>
    rw [List.flatMap_cons, ampRep, if_neg (h a (List.mem_cons_self a t)),
      ih fun c hc => h c (List.mem_cons_of_mem a hc)]
    rfl

lemma mem_flatMap_ampRep {c : Char} {l : List Char}
    (h : c ∈ l.flatMap ampRep) : c ≠ '&' ∧ (c ∈ l ∨ c.toNat < 128) := by
  rw [List.mem_flatMap] at h
  obtain ⟨a, ha, hc⟩ := h
  by_cases hamp : a = '&'
  · rw [ampRep, if_pos hamp] at hc
    fin_cases hc <;> exact ⟨by decide, Or.inr (by decide)⟩
  · rw [ampRep, if_neg hamp] at hc
    rw [List.mem_singleton] at hc
    subst hc
    exact ⟨hamp, Or.inl ha⟩

lemma toLower_notin_removed {d : Char} (h : d ∉ removedChars) :
    d.toLower ∉ removedChars := by
  intro hmem
  apply h
  simp only [removedChars, List.mem_cons, List.not_mem_nil, or_false]
    at hmem ⊢
  rcases hmem with h1|h1|h1|h1|h1|h1|h1|h1 <;>
    simp [toLower_eq_low (by decide) h1]

lemma toLower_ne_amp {d : Char} (h : d ≠ '&') : d.toLower ≠ '&' :=
  fun hc => h (toLower_eq_low (by decide) hc)

lemma map_toLower_fix {l : List Char} (h : ∀ c ∈ l, c.toLower = c) :
    l.map Char.toLower = l := by
  induction l with
  | nil => rfl
  | cons a t ih =>
    rw [List.map_cons, h a (List.mem_cons_self a t),
      ih fun c hc => h c (List.mem_cons_of_mem a hc)]

lemma cleanChars_spec (l : List Char) :
    (∀ c ∈ cleanChars l,
        c.toNat < 128 ∧ c.toLower = c ∧ c ∉ removedChars ∧ c ≠ '&')
      ∧ noTwoSpaces (cleanChars l) = true := by
  constructor
  · intro c hc
    rw [cleanChars, List.mem_map] at hc
    obtain ⟨d, hd, rfl⟩ := hc
    have hd2 := mem_collapseSpaces hd
    rw [List.mem_filter] at hd2
    obtain ⟨hd3, hdnotrem⟩ := hd2
    obtain ⟨hdamp, hdor⟩ := mem_flatMap_ampRep hd3
    have hdascii : d.toNat < 128 := by
      rcases hdor with hmem | hlt
      · rw [List.mem_filter] at hmem
        simpa using hmem.2
      · exact hlt
    refine ⟨toLower_ascii hdascii, toLower_toLower d,
      toLower_notin_removed ?_, toLower_ne_amp hdamp⟩
    simpa using hdnotrem
  · rw [cleanChars]
    exact noTwoSpaces_map_toLower (noTwoSpaces_collapseSpaces _)

lemma cleanChars_idem (l : List Char) :
    cleanChars (cleanChars l) = cleanChars l := by
  obtain ⟨hmem, hnts⟩ := cleanChars_spec l
  have h1 : (cleanChars l).filter (fun c => c.toNat < 128) = cleanChars l :=
    List.filter_eq_self.mpr fun a ha => by simpa using (hmem a ha).1
  have h2 : (cleanChars l).flatMap ampRep = cleanChars l :=
    flatMap_ampRep_eq_self fun c hc => (hmem c hc).2.2.2
  have h3 : (cleanChars l).filter (fun c => c ∉ removedChars) = cleanChars l :=
    List.filter_eq_self.mpr fun a ha => by simpa using (hmem a ha).2.2.1
  have h4 : collapseSpaces (cleanChars l) = cleanChars l :=
    collapseSpaces_eq_self hnts
  have h5 : (cleanChars l).map Char.toLower = cleanChars l :=
    map_toLower_fix fun c hc => (hmem c hc).2.1
  calc cleanChars (cleanChars l)
      = (collapseSpaces ((((cleanChars l).filter
          (fun c => c.toNat < 128)).flatMap ampRep).filter
          (fun c => c ∉ removedChars))).map Char.toLower := rfl
    _ = cleanChars l := by rw [h1, h2, h3, h4, h5]

/-- C9: `clean_series` is idempotent whenever the external NFKD
normalization fixes ASCII-only strings (true of the real `unicodedata`
normalization), its output is lower-case (every character is fixed by
`toLower`), contains none of the removed punctuation characters and no
ampersand, and has no run of two or more consecutive spaces. -/
theorem claimC9_theorem (nfkd : String → String)
    (hn : ∀ t : String, (∀ c ∈ t.toList, c.toNat < 128) → nfkd t = t)
    (s : String) :
    clean_series nfkd (clean_series nfkd s) = clean_series nfkd s
      ∧ (∀ c ∈ (clean_series nfkd s).toList, c.toLower = c)
      ∧ (∀ c ∈ (clean_series nfkd s).toList, c ∉ removedChars ∧ c ≠ '&')
      ∧ noTwoSpaces (clean_series nfkd s).toList = true := by
  have hspec := cleanChars_spec (nfkd s).toList
  have hlist : (clean_series nfkd s).toList = cleanChars (nfkd s).toList := rfl
  refine ⟨?_, ?_, ?_, ?_⟩
  · have hascii : ∀ c ∈ (clean_series nfkd s).toList, c.toNat < 128 := by
      rw [hlist]
      exact fun c hc => (hspec.1 c hc).1
    show String.mk (cleanChars (nfkd (clean_series nfkd s)).toList)
        = clean_series nfkd s
    rw [hn _ hascii, hlist, cleanChars_idem]
    rfl
  · rw [hlist]
    exact fun c hc => (hspec.1 c hc).2.1
  · rw [hlist]
    exact fun c hc => ⟨(hspec.1 c hc).2.2.1, (hspec.1 c hc).2.2.2⟩
  · rw [hlist]
    exact hspec.2

/-- C9 witness: idempotence at the identity normalization and a string
exercising every substitution. -/
theorem claimC9_witness :
    clean_series id (clean_series id "Mr. & Mrs. Smith - X?!")
        = clean_series id "Mr. & Mrs. Smith - X?!"
      ∧ clean_series id "Mr. & Mrs. Smith - X?!" = "mr and mrs smith x" :=
  ⟨(claimC9_theorem id (fun _ _ => rfl) "Mr. & Mrs. Smith - X?!").1,
   by decide⟩

/-! ## Addic7ed show resolution and query (`addic7ed.py`, lines 170-271) -/


/-- The Python str.lower, applied characterwise. -/
def pyLower (s : String) : String := String.mk (s.toList.map Char.toLower)

/-- A show-id lookup attempt: a key tried against the cached show index,
or a key sent to the remote search. -/
inductive Attempt
  | cache (key : String)
  | remote (key : String)
  deriving DecidableEq, Repr

def run_attempt (show_ids find : String → Option Int) :
    Attempt → Option Int
  | .cache k => show_ids k
  | .remote k => find k

/-- Runs attempts in order, stopping at the first success. -/
def run_attempts (show_ids find : String → Option Int) :
    List Attempt → Option Int
  | [] => none
  | a :: rest =>
    match run_attempt show_ids find a with
    | some i => some i
    | none => run_attempts show_ids find rest

/-- One lookup block of `Addic7edProvider.query`: the cache at the fix
key, else the cache at the clean key, else the remote search at the fix
key, else the remote search at the clean key; paired with the
`sub_series` value the source assigns. -/
def phase (show_ids find : String → Option Int) (fix clean : String) :
    Option (Int × String) :=
  match show_ids fix with
  | some i => some (i, fix)
  | none =>
    match show_ids clean with
    | some i => some (i, clean)
    | none =>
      match find fix with
      | some i => some (i, fix)
      | none => (find clean).map (fun i => (i, clean))

/-- Embedding of the show-id resolution of `Addic7edProvider.query`
(lines 171-228): with a year, look up `rm_par` of the lowered series with
the year appended; on failure the lowered series without the year; on
failure, and only when the series contains a parenthesized qualifier,
`rm_par` of the lowered series.  The three textually identical lookup
blocks of the source are factored into `phase`.  Returns the show id,
the resolved `sub_series` string and the `sub_year` value. -/
def a7_resolve (nfkd : String → String) (show_ids find : String → Option Int)
    (series : String) (year : Option Int) :
    Option (Int × String × Option Int) :=
  let r1 := match year with
    | some y =>
      let fix := rm_par (pyLower series) ++ " (" ++ toString y ++ ")"
      (phase show_ids find fix (clean_series nfkd fix)).map
        (fun (p : Int × String) => (p.1, p.2, some y))
    | none => none
  match r1 with
  | some r => some r
  | none =>
    match phase show_ids find (pyLower series)
        (clean_series nfkd (pyLower series)) with
    | some p => some (p.1, p.2, (none : Option Int))
    | none =>
      let fix := rm_par (pyLower series)
      if fix = pyLower series then none
      else
        (phase show_ids find fix (clean_series nfkd fix)).map
          (fun (p : Int × String) => (p.1, p.2, (none : Option Int)))

/-- The four attempts of one lookup block, in source order. -/
def lookup_block (k c : String) : List Attempt :=
  [Attempt.cache k, Attempt.cache c, Attempt.remote k, Attempt.remote c]

/-- The attempt order of the amended claim: the year-qualified block on
the `rm_par`-stripped lowered name, then the block on the lowered name,
then (only when the name carries a parenthesized qualifier) the block on
the stripped name. -/
def amended_attempts (nfkd : String → String) (series : String)
    (year : Option Int) : List Attempt :=
  (match year with
   | some y =>
     lookup_block (rm_par (pyLower series) ++ " (" ++ toString y ++ ")")
       (clean_series nfkd (rm_par (pyLower series) ++ " (" ++ toString y ++ ")"))
   | none => [])
  ++ (lookup_block (pyLower series) (clean_series nfkd (pyLower series))
      ++ (if rm_par (pyLower series) = pyLower series then []
          else lookup_block (rm_par (pyLower series))
            (clean_series nfkd (rm_par (pyLower series)))))

lemma run_attempts_append (si f : String → Option Int)
    (l1 l2 : List Attempt) :
    run_attempts si f (l1 ++ l2)
      = match run_attempts si f l1 with
        | some i => some i
        | none => run_attempts si f l2 := by
  induction l1 with
  | nil => rfl
  | cons a rest ih =>
    rw [List.cons_append, run_attempts, run_attempts]
    cases run_attempt si f a
    · simpa using ih
    · rfl

lemma run_lookup_block (si f : String → Option Int) (k c : String) :
    run_attempts si f (lookup_block k c)
      = (phase si f k c).map (fun p => p.1) := by
  rcases hk : si k with _ | i <;> rcases hc : si c with _ | j <;>
    rcases hfk : f k with _ | u <;> rcases hfc : f c with _ | w <;>
    simp [lookup_block, run_attempts, run_attempt, phase, hk, hc, hfk, hfc]

lemma a7_resolve_eq_run_attempts (nfkd : String → String) (show_ids find : String → Option Int)
    (series : String) (year : Option Int) :
    (a7_resolve nfkd show_ids find series year).map (fun r => r.1)
      = run_attempts show_ids find (amended_attempts nfkd series year) := by
  unfold a7_resolve amended_attempts
  cases year with
  | none =>
    simp only [List.nil_append]
    rw [run_attempts_append, run_lookup_block]
    cases hp2 : phase show_ids find (pyLower series)
        (clean_series nfkd (pyLower series)) with
    | some p => simp
    | none =>
      simp only [Option.map_none]
      by_cases hfix : rm_par (pyLower series) = pyLower series
      · simp [hfix, run_attempts]
      · simp [hfix, run_lookup_block, Option.map_map]
        rfl
  | some y =>
    rw [run_attempts_append, run_lookup_block]
    cases hp1 : phase show_ids find
        (rm_par (pyLower series) ++ " (" ++ toString y ++ ")")
        (clean_series nfkd (rm_par (pyLower series) ++ " (" ++ toString y ++ ")")) with
    | some p => simp [hp1]
    | none =>
      simp only [hp1, Option.map_none]
      rw [run_attempts_append, run_lookup_block]
      cases hp2 : phase show_ids find (pyLower series)
          (clean_series nfkd (pyLower series)) with
      | some p => simp [hp2]
      | none =>
        simp only [hp2, Option.map_none]
        by_cases hfix : rm_par (pyLower series) = pyLower series
        · simp [hfix, run_attempts]
        · simp [hfix, run_lookup_block, Option.map_map]
          rfl


/-- One table row of the season page, the ten cells the source reads
(`cells[i].string` values can be missing, the two hrefs are read off
anchor elements). -/
structure Row where
  seasonStr : Option String
  episodeStr : Option String
  title : Option String
  language : Option String
  version : Option String
  status : Option String
  hearing : Option String
  corrected : Option String
  hd : Option String
  download_href : String
  page_href : String
  deriving DecidableEq, Repr

/-- Embedding of the row filter of `Addic7edProvider.query` (lines
235-271): skip unless the status cell is Completed, skip when the
language cell is missing or empty (the conversion `fromaddic7ed` is the
parameter `conv`), skip unless season and episode are present (a
non-numeric cell, on which the `int` call of the source would raise, is
also skipped), skip when the episode or the converted language is not the
requested one; otherwise build the subtitle. -/
def row_to_sub (conv : String → String) (languages : List String)
    (episode : Int) (sub_series : String) (sub_year : Option Int)
    (r : Row) : Option Addic7edSub :=
  if r.status ≠ some "Completed" then none
  else
    match r.language with
    | none => none
    | some l =>
      if l = "" then none
      else
        let sub_language := conv l
        match r.seasonStr, r.episodeStr with
        | some ss, some es =>
          match pyInt ss, pyInt es with
          | some sn, some en =>
            if en ≠ episode ∨ sub_language ∉ languages then none
            else some
              { language := sub_language, series := sub_series,
                season := sn, episode := en, title := r.title,
                year := sub_year,
                version := r.version,
                hearing_impaired := (match r.hearing with
                                     | some h => h ≠ ""
                                     | none => false),
                download_link := r.download_href,
                page_link := "http://www.addic7ed.com" ++ r.page_href }
          | _, _ => none
        | _, _ => none

/-- Embedding of `Addic7edProvider.query`: resolve the show id (the
cached index, the remote search and the season page fetch are
parameters), return no subtitles when resolution fails, otherwise filter
the rows of the fetched season page. -/
def a7_query (nfkd conv : String → String)
    (show_ids find : String → Option Int) (fetch : Int → Int → List Row)
    (languages : List String) (series : String) (season episode : Int)
    (year : Option Int) : List Addic7edSub :=
  match a7_resolve nfkd show_ids find series year with
  | none => []
  | some (show_id, sub_series, sub_year) =>
    (fetch show_id season).filterMap
      (row_to_sub conv languages episode sub_series sub_year)

lemma row_to_sub_some {conv : String → String} {languages : List String}
    {episode : Int} {sub_series : String} {sub_year : Option Int} {r : Row}
    {sub : Addic7edSub}
    (h : row_to_sub conv languages episode sub_series sub_year r = some sub) :
    sub.episode = episode ∧ sub.language ∈ languages
      ∧ (∃ l, l ≠ "" ∧ sub.language = conv l ∧ r.language = some l)
      ∧ r.status = some "Completed" := by
  obtain ⟨oss, oes, ot, olang, over, ost, oh, oc, ohd, odl, opl⟩ := r
  rcases ost with _ | st
  · simp [row_to_sub] at h
  by_cases hstc : st = "Completed"
  case neg => simp [row_to_sub, hstc] at h
  subst hstc
  rcases olang with _ | l
  · simp [row_to_sub] at h
  by_cases hl0 : l = ""
  · simp [row_to_sub, hl0] at h
  rcases oss with _ | ss
  · simp [row_to_sub] at h
  rcases oes with _ | es
  · simp [row_to_sub] at h
  rcases hsn : pyInt ss with _ | sn
  · simp [row_to_sub, hsn] at h
  rcases hen : pyInt es with _ | en
  · simp [row_to_sub, hsn, hen] at h
  by_cases hcond : en ≠ episode ∨ conv l ∉ languages
  · simp [row_to_sub, hsn, hen, hcond, hl0] at h
  push_neg at hcond
  simp [row_to_sub, hsn, hen, hl0, hcond.1, hcond.2] at h
  subst h
  exact ⟨rfl, hcond.2, ⟨l, hl0, rfl, rfl⟩, rfl⟩
/-- C8: every subtitle returned by `Addic7edProvider.query` has the
requested episode number and a language obtained by converting a
non-empty language cell that belongs to the requested set; a row with an
empty or missing language cell, or without Completed status, never
produces a subtitle (it is excluded before any matching can happen). -/
theorem claimC8_theorem (nfkd conv : String → String)
    (show_ids find : String → Option Int) (fetch : Int → Int → List Row)
    (languages : List String) (series : String) (season episode : Int)
    (year : Option Int) :
    (∀ sub ∈ a7_query nfkd conv show_ids find fetch languages series season
        episode year,
      sub.episode = episode ∧ sub.language ∈ languages
        ∧ ∃ l, l ≠ "" ∧ sub.language = conv l)
      ∧ (∀ (ss : String) (sy : Option Int) (r : Row),
          r.language = none ∨ r.language = some "" →
          row_to_sub conv languages episode ss sy r = none)
      ∧ (∀ (ss : String) (sy : Option Int) (r : Row),
          r.status ≠ some "Completed" →
          row_to_sub conv languages episode ss sy r = none) := by
  refine ⟨?_, ?_, ?_⟩
  · intro sub hsub
    unfold a7_query at hsub
    rcases hres : a7_resolve nfkd show_ids find series year with _ | tri
    · rw [hres] at hsub; simp at hsub
    · rw [hres] at hsub
      obtain ⟨show_id, sub_series, sub_year⟩ := tri
      rw [List.mem_filterMap] at hsub
      obtain ⟨r, _, hr⟩ := hsub
      obtain ⟨h1, h2, ⟨l, hl0, hl1, _⟩, _⟩ := row_to_sub_some hr
      exact ⟨h1, h2, l, hl0, hl1⟩
  · intro ss sy r hlang
    unfold row_to_sub
    split
    · rfl
    rcases hlang with hl | hl <;> simp [hl]
  · intro ss sy r hst
    unfold row_to_sub
    rw [if_pos hst]

/-- C8 witness: the row of the claim, with season 1 and episode 2
populated but the language cell empty, yields no subtitle. -/
theorem claimC8_witness :
    row_to_sub id ["english"] 2 "dexter" none
        { seasonStr := some "1", episodeStr := some "2", title := some "t",
          language := some "", version := some "720p",
          status := some "Completed", hearing := some "",
          corrected := some "", hd := some "", download_href := "/d",
          page_href := "/p" } = none :=
  (claimC8_theorem id id (fun _ => none) (fun _ => none) (fun _ _ => [])
      ["english"] "dexter" 1 2 none).2.1 "dexter" none _ (Or.inr rfl)

/-- C5 (amended): the show-id resolution of `Addic7edProvider.query`
equals running, in order and stopping at the first success, the cache
and remote lookups of the amended attempt list: with a year, the first
key is `rm_par` of the lowered series with the year appended (the source
strips a parenthesized qualifier before appending the year), then its
condensed form, then the remote searches of both; then the same block
without the year on the unstripped lowered name; then, only when the
name carries a parenthesized qualifier, the block on the stripped name;
and a failed resolution makes the query return no subtitles rather than
raise. -/
theorem claimC5_theorem (nfkd conv : String → String)
    (show_ids find : String → Option Int) (fetch : Int → Int → List Row)
    (languages : List String) (series : String) (season episode : Int)
    (year : Option Int) :
    ((a7_resolve nfkd show_ids find series year).map (fun r => r.1)
        = run_attempts show_ids find (amended_attempts nfkd series year))
      ∧ (a7_resolve nfkd show_ids find series year = none →
          a7_query nfkd conv show_ids find fetch languages series season
            episode year = []) := by
  refine ⟨a7_resolve_eq_run_attempts nfkd show_ids find series year, ?_⟩
  intro hres
  unfold a7_query
  rw [hres]

/-- The cached show index of the C5 counterexample: it contains exactly
the key the claim says is tried first. -/
def c5_show_ids : String → Option Int :=
  fun k => if k = "show name (us) (2020)" then some 7 else none

/-- C5 counterexample: for series "Show Name (US)" with year 2020 the
claim says the first cache key tried is "show name (us) (2020)", so a
cache containing exactly that key would have to resolve; the source
strips the parenthesized qualifier before appending the year, tries
"show name (2020)" first, and the resolution fails entirely on this
cache. -/
theorem claimC5_counterexample :
    c5_show_ids "show name (us) (2020)" = some 7
      ∧ a7_resolve id c5_show_ids (fun _ => none) "Show Name (US)"
          (some 2020) = none
      ∧ (amended_attempts id "Show Name (US)" (some 2020)).head?
          = some (Attempt.cache "show name (2020)")
      ∧ "show name (2020)" ≠ "show name (us) (2020)" := by
  refine ⟨by decide, by decide, by decide, by decide⟩

/-- C5 witness: on the counterexample inputs the resolution fails and the
query returns the empty result. -/
theorem claimC5_witness :
    a7_query id id c5_show_ids (fun _ => none) (fun _ _ => []) []
        "Show Name (US)" 1 2 (some 2020) = [] :=
  (claimC5_theorem id id c5_show_ids (fun _ => none) (fun _ _ => []) []
      "Show Name (US)" 1 2 (some 2020)).2 (by decide)

end Subliminal
